import Mathlib

/-!
Verification of the sensor-aggregation pipeline in `src/main.py` and
`src/mqtt_client.py` of the raspberrypi5_sensor repository.

Values are modelled as rationals.  Python's `round(x, n)` rounds half to
even on the scaled value; `roundHalfEven` below reproduces that policy on ℚ.
Timestamps (`time.monotonic()`) are rationals, deques are lists ordered as
appended.
-/

/-- Floor of a rational, written so that it evaluates by kernel reduction. -/
def ratFloor (x : ℚ) : ℤ := x.num / (x.den : ℤ)

theorem ratFloor_eq_floor (x : ℚ) : ratFloor x = ⌊x⌋ := (Rat.floor_def).symm

/-- Round a rational to the nearest integer, ties to even (Python `round`). -/
def roundHalfEven (x : ℚ) : ℤ :=
  let f := ratFloor x
  let r := x - f
  if r < 1/2 then f
  else if 1/2 < r then f + 1
  else if f % 2 = 0 then f else f + 1

/-- Python `round(x, n)`: round at the n-th decimal place, ties to even. -/
def roundTo (n : ℕ) (x : ℚ) : ℚ :=
  (roundHalfEven (x * 10 ^ n) : ℚ) / 10 ^ n

/-- `round(x, 2)` as used throughout `main.py`. -/
def round2 (x : ℚ) : ℚ := roundTo 2 x

-- ## Constants of src/main.py (lines 65-74)

def BUF_WINDOW_S : ℚ := 10

def MIN_SAMPLES_FOR_TRIM : ℕ := 5

/-- `MIN_REQUIRED` dict of main.py: minimum sample counts per metric. -/
structure MinRequired where
  slot : ℕ
  co2 : ℕ
  pm25 : ℕ
  pres : ℕ

def MIN_REQUIRED : MinRequired := ⟨2, 2, 5, 2⟩

-- ## Aggregator functions (main.py lines 105-123)

/-- `_mean_safe(values)`: `None` on empty, else mean rounded to 2 decimals. -/
def mean_safe (values : List ℚ) : Option ℚ :=
  if values.isEmpty then none
  else some (round2 (values.sum / values.length))

/-- `statistics.median` on a list of rationals: middle element of the sorted
list for odd length, average of the two central elements for even length. -/
def pyMedian (values : List ℚ) : ℚ :=
  let s := values.insertionSort (· ≤ ·)
  let n := values.length
  if n % 2 = 1 then s.getD (n / 2) 0
  else (s.getD (n / 2 - 1) 0 + s.getD (n / 2) 0) / 2

/-- `_median_safe(values)`: `None` on empty, else median rounded to 2 decimals. -/
def median_safe (values : List ℚ) : Option ℚ :=
  if values.isEmpty then none
  else some (round2 (pyMedian values))

/-- `_trimmed_mean_safe(values, frac=0.10)`.  `int(n * 0.1)` in Python equals
`n / 10` (floor division) for every realistic window size, so the trim count
is embedded as `n / 10`.  The slice `sorted(values)[k:n-k]` is
`(drop k).take (n - 2k)`. -/
def trimmed_mean_safe (values : List ℚ) : Option ℚ :=
  if values.isEmpty then none
  else
    let n := values.length
    if n < MIN_SAMPLES_FOR_TRIM then some (round2 (values.sum / n))
    else
      let k := n / 10
      if k = 0 then some (round2 (values.sum / n))
      else
        let vals := ((values.insertionSort (· ≤ ·)).drop k).take (n - 2 * k)
        if vals.isEmpty then some (round2 (values.sum / n))
        else some (round2 (vals.sum / vals.length))

example : median_safe [400, 420, 440] = some 420 := by with_unfolding_all decide
example : median_safe [400, 420, 440, 460] = some 430 := by with_unfolding_all decide
example : trimmed_mean_safe [1, 2, 3, 4, 5] = some 3 := by with_unfolding_all decide
example : trimmed_mean_safe [100, 1, 2, 3, 4, 5, 6, 7, 8, 0] = some (9/2) := by
  with_unfolding_all decide

-- ## Window buffer (main.py lines 76-103)

/-- A deque entry is a `(timestamp, value)` pair. -/
abbrev Entry := ℚ × ℚ

/-- The `buf` dict of main.py: one deque per metric, four per-zone deques
for the SHTC3 temperature and humidity slots. -/
structure Buf where
  temp_slots : Fin 4 → List Entry
  rh_slots : Fin 4 → List Entry
  bme_temp : List Entry
  bme_rh : List Entry
  bme_pres : List Entry
  co2 : List Entry
  pm25 : List Entry

def emptyBuf : Buf := ⟨fun _ => [], fun _ => [], [], [], [], [], []⟩

/-- `_push(ts, key, val)` on one deque: no-op when the value is `None`,
else append `(ts, val)` at the right end. -/
def pushVal (ts : ℚ) (val : Option ℚ) (dq : List Entry) : List Entry :=
  match val with
  | none => dq
  | some v => dq ++ [(ts, v)]

/-- The inner loop of `_prune_now`: `while d and d[0][0] < cutoff: d.popleft()`. -/
def pruneDeque (cutoff : ℚ) : List Entry → List Entry
  | [] => []
  | (t, v) :: rest => if t < cutoff then pruneDeque cutoff rest else (t, v) :: rest

/-- `_prune_now(now)`: drop from the head of every deque while the head
timestamp is below `now - BUF_WINDOW_S`. -/
def prune_now (now : ℚ) (b : Buf) : Buf :=
  let cutoff := now - BUF_WINDOW_S
  { temp_slots := fun i => pruneDeque cutoff (b.temp_slots i)
    rh_slots := fun i => pruneDeque cutoff (b.rh_slots i)
    bme_temp := pruneDeque cutoff b.bme_temp
    bme_rh := pruneDeque cutoff b.bme_rh
    bme_pres := pruneDeque cutoff b.bme_pres
    co2 := pruneDeque cutoff b.co2
    pm25 := pruneDeque cutoff b.pm25 }

/-- All thirteen deques of the buffer, in the iteration order of `buf.values()`. -/
def Buf.deques (b : Buf) : List (List Entry) :=
  [b.temp_slots 0, b.temp_slots 1, b.temp_slots 2, b.temp_slots 3,
   b.rh_slots 0, b.rh_slots 1, b.rh_slots 2, b.rh_slots 3,
   b.bme_temp, b.bme_rh, b.bme_pres, b.co2, b.pm25]

-- ## Publisher aggregation (main.py lines 294-312)

/-- `vals(dq)`: the values of a deque, timestamps dropped. -/
def dequeVals (dq : List Entry) : List ℚ := dq.map (fun e => e.2)

/-- Slot aggregate: `_mean_safe(vs) if len(vs) >= MIN_REQUIRED["slot"] else None`. -/
def slotAgg (dq : List Entry) : Option ℚ :=
  let vs := dequeVals dq
  if MIN_REQUIRED.slot ≤ vs.length then mean_safe vs else none

def temp_slots_aggs (b : Buf) : List (Option ℚ) :=
  (List.finRange 4).map (fun i => slotAgg (b.temp_slots i))

def rh_slots_aggs (b : Buf) : List (Option ℚ) :=
  (List.finRange 4).map (fun i => slotAgg (b.rh_slots i))

/-- `co2_aggr`: median, gated by `MIN_REQUIRED["co2"]`. -/
def co2_aggr (b : Buf) : Option ℚ :=
  let vs := dequeVals b.co2
  if MIN_REQUIRED.co2 ≤ vs.length then median_safe vs else none

/-- `pm25_aggr`: trimmed mean, gated by `MIN_REQUIRED["pm25"]`. -/
def pm25_aggr (b : Buf) : Option ℚ :=
  let vs := dequeVals b.pm25
  if MIN_REQUIRED.pm25 ≤ vs.length then trimmed_mean_safe vs else none

/-- `pres_aggr`: mean, gated by `MIN_REQUIRED["pres"]`. -/
def pres_aggr (b : Buf) : Option ℚ :=
  let vs := dequeVals b.bme_pres
  if MIN_REQUIRED.pres ≤ vs.length then mean_safe vs else none

-- ## Payload shaping (main.py lines 314-344)

/-- `f4_float(lst)`: `None` becomes `0.0`, then pad with zeros and truncate
to exactly four entries. -/
def f4_float (lst : List (Option ℚ)) : List ℚ :=
  ((lst.map (fun x : Option ℚ => x.getD 0)) ++ [0, 0, 0, 0]).take 4

/-- `single_to4_int(v)`: `[int(round(v)), 0, 0, 0]`, `None` becomes `0`. -/
def single_to4_int (v : Option ℚ) : List ℤ :=
  [(match v with | some x => roundHalfEven x | none => 0), 0, 0, 0]

/-- `single_to4_float(v)`: `[v, 0.0, 0.0, 0.0]`, `None` becomes `0.0`. -/
def single_to4_float (v : Option ℚ) : List ℚ :=
  [v.getD 0, 0, 0, 0]

/-- The `"data"` object of the publish payload. -/
structure PayloadData where
  temperature : List ℚ
  humidity : List ℚ
  co2 : List ℤ
  pm25 : List ℤ
  pressure : List ℚ

/-- Payload construction of one publish cycle from the pruned buffer. -/
def buildPayload (b : Buf) : PayloadData :=
  { temperature := f4_float (temp_slots_aggs b)
    humidity := f4_float (rh_slots_aggs b)
    co2 := single_to4_int (co2_aggr b)
    pm25 := single_to4_int (pm25_aggr b)
    pressure := single_to4_float (pres_aggr b) }

example :
    pruneDeque 10 [(9, 1), (11, 2), (12, 3)] = [(11, 2), (12, 3)] := by
  with_unfolding_all decide

example :
    pruneDeque 10 [(11, 2), (9, 1)] = [(11, 2), (9, 1)] := by
  with_unfolding_all decide

-- ## Publisher loop (main.py lines 246-292)

/-- One snapshot of `latest` as read by the Publisher, already keyed by slot
(`ch_to_slot = {2:0, 3:1, 4:2, 5:3}`).  Outer `Option` models a falsy dict
entry, inner `Option`s model `dict.get` of a value that `_push` skips. -/
structure Snap where
  shtc3 : Fin 4 → Option (Option ℚ × Option ℚ)
  bme280 : Option (Option ℚ × Option ℚ × Option ℚ)
  mhz19b : Option (Option ℚ)
  gp2y : Option (Option ℚ)

/-- The push section of one Publisher tick (main.py lines 256-277). -/
def pushSnap (ts : ℚ) (snap : Snap) (b : Buf) : Buf :=
  let b1 : Buf :=
    { b with
      temp_slots := fun i =>
        match snap.shtc3 i with
        | some e => pushVal ts e.1 (b.temp_slots i)
        | none => b.temp_slots i
      rh_slots := fun i =>
        match snap.shtc3 i with
        | some e => pushVal ts e.2 (b.rh_slots i)
        | none => b.rh_slots i }
  let b2 : Buf :=
    match snap.bme280 with
    | some e =>
        { b1 with
          bme_temp := pushVal ts e.1 b1.bme_temp
          bme_rh := pushVal ts e.2.1 b1.bme_rh
          bme_pres := pushVal ts e.2.2 b1.bme_pres }
    | none => b1
  let b3 : Buf :=
    match snap.mhz19b with
    | some c => { b2 with co2 := pushVal ts c b2.co2 }
    | none => b2
  match snap.gp2y with
  | some p => { b3 with pm25 := pushVal ts p b3.pm25 }
  | none => b3

/-- The warm-up test of main.py lines 283-287:
`any(len(dq) >= 1 for dq in buf["temp_slots"].values()) or co2 or pm or pres`. -/
def warmCheck (b : Buf) : Bool :=
  ((List.finRange 4).any (fun i => !(b.temp_slots i).isEmpty))
    || !b.co2.isEmpty || !b.pm25.isEmpty || !b.bme_pres.isEmpty

/-- Whether a snapshot pushes at least one sample into one of the four
deque groups inspected by the warm-up test. -/
def snapHasSample (snap : Snap) : Bool :=
  ((List.finRange 4).any (fun i =>
      match snap.shtc3 i with
      | some e => e.1.isSome
      | none => false))
    || (match snap.mhz19b with | some c => c.isSome | none => false)
    || (match snap.gp2y with | some p => p.isSome | none => false)
    || (match snap.bme280 with | some e => e.2.2.isSome | none => false)

/-- The mutable locals of the Publisher loop: `first_window_start` and `t0`. -/
structure PubState where
  first_window_start : Option ℚ
  t0 : ℚ

/-- One iteration of the Publisher loop body: push the snapshot, prune,
latch `first_window_start`, and decide whether this tick publishes
(`first_window_start is not None and now - t0 >= 10 and
now - first_window_start >= 10`; on publish `t0 = now`). -/
def pubTick (now : ℚ) (snap : Snap) (s : PubState) (b : Buf) :
    PubState × Buf × Bool :=
  let b1 := prune_now now (pushSnap now snap b)
  let fws : Option ℚ :=
    match s.first_window_start with
    | some x => some x
    | none => if warmCheck b1 then some now else none
  match fws with
  | some x =>
      if BUF_WINDOW_S ≤ now - s.t0 ∧ BUF_WINDOW_S ≤ now - x then
        (⟨some x, now⟩, b1, true)
      else
        (⟨some x, s.t0⟩, b1, false)
  | none => (⟨none, s.t0⟩, b1, false)

/-- Run the Publisher loop over a list of ticks `(now, snapshot)` and
collect the times of the ticks that publish. -/
def pubRunAux (s : PubState) (b : Buf) : List (ℚ × Snap) → List ℚ
  | [] => []
  | (now, snap) :: rest =>
      let r := pubTick now snap s b
      if r.2.2 then now :: pubRunAux r.1 r.2.1 rest
      else pubRunAux r.1 r.2.1 rest

/-- Publish times of a full run: `first_window_start = None`, `t0` set to the
loop entry time, buffer empty (main.py lines 246-247). -/
def publishTimes (tStart : ℚ) (ticks : List (ℚ × Snap)) : List ℚ :=
  pubRunAux ⟨none, tStart⟩ emptyBuf ticks

/-- Time of the first tick whose snapshot carries a sample for one of the
warm-up-checked metrics, i.e. the tick at which the first sample enters the
window buffer. -/
def firstSampleTime (ticks : List (ℚ × Snap)) : Option ℚ :=
  (ticks.find? (fun tk => snapHasSample tk.2)).map (fun tk => tk.1)

-- ## Sampling workers (main.py lines 128-232)

/-- The `latest` dict guarded by `state_lock`.  Each entry is `none` when the
dict holds `None` (no valid reading); `shtc3` is keyed by mux channel. -/
structure Latest where
  sht41 : Option (ℚ × ℚ)
  shtc3 : ℕ → Option (ℚ × ℚ)
  bme280 : Option (ℚ × ℚ × ℚ × ℚ)
  gp2y : Option (ℚ × ℚ)
  mhz19b : Option (ℤ × ℤ)

/-- A sensor read that either yields a value or raises. -/
abbrev ReadResult (α : Type) := Except String α

/-- The body of the `for ch in ch_list_shtc3` loop: a successful read stores
the reading under the channel, an exception stores `None` there. -/
def shtc3Step (shtc3Read : ℕ → ReadResult (ℚ × ℚ)) (s : Latest) (ch : ℕ) :
    Latest :=
  match shtc3Read ch with
  | .ok th => { s with shtc3 := Function.update s.shtc3 ch (some th) }
  | .error _ => { s with shtc3 := Function.update s.shtc3 ch none }

/-- One iteration of `worker_mux_shts`: read the SHT41 (channel 1), then each
SHTC3 channel in `TARGET_CHANNELS = [2, 3, 4, 5]`; on an exception the
corresponding `latest` entry is set to `None`. -/
def worker_mux_shts_iter (sht41Read : ReadResult (ℚ × ℚ))
    (shtc3Read : ℕ → ReadResult (ℚ × ℚ)) (chans : List ℕ) (st : Latest) :
    Latest :=
  let st1 :=
    match sht41Read with
    | .ok th => { st with sht41 := some th }
    | .error _ => { st with sht41 := none }
  chans.foldl (shtc3Step shtc3Read) st1

/-- One iteration of `worker_bme_gp2y`: the BME280 is read only when the init
handle exists (`if _bme:`); a read exception clears `latest["bme280"]`; the
GP2Y read is independent and a failure clears `latest["gp2y"]`.  Readings are
rounded as in main.py lines 183-186 and 197. -/
def worker_bme_gp2y_iter (haveBme : Bool)
    (bmeRead : ReadResult (ℚ × ℚ × ℚ × ℚ)) (gp2yRead : ReadResult (ℚ × ℚ))
    (st : Latest) : Latest :=
  let st1 :=
    if haveBme then
      match bmeRead with
      | .ok e =>
          let r := some (round2 e.1, round2 e.2.1, round2 e.2.2.1, round2 e.2.2.2)
          { st with bme280 := r }
      | .error _ => { st with bme280 := none }
    else st
  match gp2yRead with
  | .ok e => { st1 with gp2y := some (roundTo 5 e.1, roundTo 1 e.2) }
  | .error _ => { st1 with gp2y := none }

/-- One iteration of `worker_mhz`: `read_mhz19(ser) if ser else None`; a falsy
result falls back to the adapter's `last_valid_result` when present; an
exception clears `latest["mhz19b"]`. -/
def worker_mhz_iter (haveSer : Bool)
    (mhzRead : ReadResult (Option (ℤ × ℤ × ℤ)))
    (lastValid : Option (ℤ × ℤ × ℤ)) (st : Latest) : Latest :=
  match (if haveSer then mhzRead else .ok none) with
  | .error _ => { st with mhz19b := none }
  | .ok res =>
      let ct : Option (ℤ × ℤ) :=
        match res with
        | some r => some (r.1, r.2.1)
        | none =>
            match lastValid with
            | some r => some (r.1, r.2.1)
            | none => none
      { st with mhz19b := ct }

-- ## MQTT client (mqtt_client.py lines 14-20)

/-- Which log line `MQTTClient.publish` prints. -/
inductive PubLog
  | pubLine
  | warningLine
deriving DecidableEq

/-- `MQTTClient.publish(topic, payload, qos)`: the message is handed to the
underlying `paho` client in both branches; membership of the topic in
`publish_topics` selects only the log line. -/
def MQTTClient_publish (publish_topics : List (String × ℕ))
    (topic payload : String) (qos : ℕ) :
    PubLog × List (String × String × ℕ) :=
  if topic ∈ publish_topics.map (fun t => t.1) then
    (.pubLine, [(topic, payload, qos)])
  else
    (.warningLine, [(topic, payload, qos)])

-- ## Publisher connect phase and per-destination publishing
-- (main.py lines 237-244 and 346-352)

/-- Observable startup behaviour of `publisher()`. -/
inductive StartEvent
  | connectAttempt
  | connectedLog
  | connectErrorLog (e : String)
  | enterLoop
deriving DecidableEq

/-- The connect phase of `publisher()`: one `mqtt.connect()` call; on success
the loop is entered, on an exception the error is logged and the function
returns (`return` at main.py line 244). -/
def publisherStartEvents (connectResult : Except String Unit) :
    List StartEvent :=
  match connectResult with
  | .ok _ => [.connectAttempt, .connectedLog, .enterLoop]
  | .error e => [.connectAttempt, .connectErrorLog e]

/-- Outcome of one destination inside the publish loop. -/
inductive PubEvent
  | sent (topic : String) (qos : ℕ)
  | errorLogged (topic : String) (e : String)
deriving DecidableEq

def PubEvent.topic : PubEvent → String
  | .sent t _ => t
  | .errorLogged t _ => t

/-- The `for topic, qos in TOPICS_PUB` loop of main.py lines 347-352: each
destination is attempted inside its own try/except, so a failure is logged
and the loop moves on to the next destination. -/
def publishToAll (pub : String → Except String Unit) :
    List (String × ℕ) → List PubEvent
  | [] => []
  | (topic, qos) :: rest =>
      match pub topic with
      | .ok _ => .sent topic qos :: publishToAll pub rest
      | .error e => .errorLogged topic e :: publishToAll pub rest

-- ## Theorems

/-- Claim C1: for every buffer state at aggregation time, a metric whose
window holds fewer samples than its minimum count (slot 2, CO₂ 2,
particulate 5, pressure 2) aggregates to `None`, never to a number. -/
theorem C1_min_sample_gating (b : Buf) :
    (∀ i : Fin 4, (dequeVals (b.temp_slots i)).length < MIN_REQUIRED.slot →
      slotAgg (b.temp_slots i) = none) ∧
    (∀ i : Fin 4, (dequeVals (b.rh_slots i)).length < MIN_REQUIRED.slot →
      slotAgg (b.rh_slots i) = none) ∧
    ((dequeVals b.co2).length < MIN_REQUIRED.co2 → co2_aggr b = none) ∧
    ((dequeVals b.pm25).length < MIN_REQUIRED.pm25 → pm25_aggr b = none) ∧
    ((dequeVals b.bme_pres).length < MIN_REQUIRED.pres → pres_aggr b = none) := by
  refine ⟨fun i h => ?_, fun i h => ?_, fun h => ?_, fun h => ?_, fun h => ?_⟩ <;>
    · first
      | (simp only [slotAgg]; rw [if_neg (by omega)])
      | (simp only [co2_aggr]; rw [if_neg (by omega)])
      | (simp only [pm25_aggr]; rw [if_neg (by omega)])
      | (simp only [pres_aggr]; rw [if_neg (by omega)])

/-- Witness for C1 at the empty buffer: every window is under-filled, so
every aggregate is unavailable. -/
theorem C1_min_sample_gating_witness :
    slotAgg (emptyBuf.temp_slots 0) = none ∧ slotAgg (emptyBuf.rh_slots 0) = none ∧
    co2_aggr emptyBuf = none ∧ pm25_aggr emptyBuf = none ∧
    pres_aggr emptyBuf = none :=
  ⟨(C1_min_sample_gating emptyBuf).1 0 (by decide),
   (C1_min_sample_gating emptyBuf).2.1 0 (by decide),
   (C1_min_sample_gating emptyBuf).2.2.1 (by decide),
   (C1_min_sample_gating emptyBuf).2.2.2.1 (by decide),
   (C1_min_sample_gating emptyBuf).2.2.2.2 (by decide)⟩

/-- The trimmed-mean algorithm as the spec words it: below 5 samples the
plain mean; else trim count `k = floor(n/10)`; if `k = 0` or trimming would
remove everything, the plain mean; else the mean of the sorted list with the
lowest `k` and the highest `k` entries removed; rounded to 2 decimals. -/
def trimmedMeanSpec (values : List ℚ) : ℚ :=
  let n := values.length
  if n < 5 then round2 (values.sum / n)
  else
    let k := n / 10
    let s := values.insertionSort (· ≤ ·)
    let trimmed := (s.take (n - k)).drop k
    if k = 0 ∨ trimmed.isEmpty then round2 (values.sum / n)
    else round2 (trimmed.sum / trimmed.length)

/-- Claim C2: `_trimmed_mean_safe` computes exactly the staged algorithm the
spec describes; with 5 samples it degenerates to the plain mean and with 10
samples it averages the sorted list minus its smallest and largest entry. -/
theorem C2_trimmed_mean (values : List ℚ) (h : values ≠ []) :
    trimmed_mean_safe values = some (trimmedMeanSpec values) ∧
    (values.length = 5 →
      trimmed_mean_safe values = some (round2 (values.sum / 5))) ∧
    (values.length = 10 →
      trimmed_mean_safe values =
        some (round2
          ((((values.insertionSort (· ≤ ·)).drop 1).take 8).sum / 8))) := by
  have hne : values.isEmpty = false := by
    simp [List.isEmpty_iff, h]
  have hslice : ∀ k m, ((values.insertionSort (· ≤ ·)).take m).drop k =
      ((values.insertionSort (· ≤ ·)).drop k).take (m - k) := by
    intro k m
    exact List.drop_take m k _
  have href : trimmed_mean_safe values = some (trimmedMeanSpec values) := by
    simp only [trimmed_mean_safe, trimmedMeanSpec, hne, Bool.false_eq_true, if_false]
    by_cases h5 : values.length < 5
    · simp [h5, MIN_SAMPLES_FOR_TRIM]
    · simp only [MIN_SAMPLES_FOR_TRIM, h5, if_false]
      by_cases hk : values.length / 10 = 0
      · simp [hk]
      · rw [hslice]
        have harith : values.length - values.length / 10 - values.length / 10 =
            values.length - 2 * (values.length / 10) := by omega
        rw [harith]
        simp only [hk, false_or, if_false]
        split_ifs <;> rfl
  refine ⟨href, fun h5 => ?_, fun h10 => ?_⟩
  · rw [href]
    simp [trimmedMeanSpec, h5]
  · rw [href]
    have hlen : (values.insertionSort (· ≤ ·)).length = 10 := by
      rw [List.length_insertionSort]; exact h10
    have hlen8 : (((values.insertionSort (· ≤ ·)).drop 1).take 8).length = 8 := by
      rw [List.length_take, List.length_drop, hlen]
      omega
    simp only [trimmedMeanSpec, h10]
    rw [if_neg (by norm_num)]
    rw [show (10 : ℕ) / 10 = 1 from rfl, show (10 : ℕ) - 1 = 9 from rfl]
    rw [hslice 1 9, show (9 : ℕ) - 1 = 8 from rfl]
    have hne8 : ¬((1 : ℕ) = 0 ∨
        (((values.insertionSort (· ≤ ·)).drop 1).take 8).isEmpty = true) := by
      rintro (h1 | h2)
      · exact absurd h1 (by norm_num)
      · rw [List.isEmpty_iff] at h2
        rw [h2] at hlen8
        simp at hlen8
    rw [if_neg hne8, hlen8]
    norm_num

/-- Witness for C2 at `[3, 1, 2, 5, 4]` (plain-mean fallback) and at a
10-sample window (outliers 100 and 0 dropped). -/
theorem C2_trimmed_mean_witness :
    trimmed_mean_safe [3, 1, 2, 5, 4] =
      some (round2 (([3, 1, 2, 5, 4] : List ℚ).sum / 5)) ∧
    trimmed_mean_safe [100, 1, 2, 3, 4, 5, 6, 7, 8, 0] =
      some (round2 (List.sum (List.take 8 (List.drop 1
        (List.insertionSort (· ≤ ·) ([100, 1, 2, 3, 4, 5, 6, 7, 8, 0] : List ℚ)))) / 8)) :=
  ⟨(C2_trimmed_mean [3, 1, 2, 5, 4] (by decide)).2.1 (by decide),
   (C2_trimmed_mean [100, 1, 2, 3, 4, 5, 6, 7, 8, 0] (by decide)).2.2 (by decide)⟩

/-- Claim C3: the median is the middle of the sorted window for odd counts
and the average of the two central values for even counts, rounded to 2
decimals; `[400, 420, 440] ↦ 420` and `[400, 420, 440, 460] ↦ 430`. -/
theorem C3_median (values : List ℚ) (h : values ≠ []) :
    (values.length % 2 = 1 →
      median_safe values =
        some (round2 ((values.insertionSort (· ≤ ·)).getD (values.length / 2) 0))) ∧
    (values.length % 2 = 0 →
      median_safe values =
        some (round2 (((values.insertionSort (· ≤ ·)).getD (values.length / 2 - 1) 0 +
          (values.insertionSort (· ≤ ·)).getD (values.length / 2) 0) / 2))) ∧
    median_safe [400, 420, 440] = some 420 ∧
    median_safe [400, 420, 440, 460] = some 430 := by
  have hne : values.isEmpty = false := by simp [List.isEmpty_iff, h]
  refine ⟨fun hodd => ?_, fun heven => ?_, ?_, ?_⟩
  · simp [median_safe, pyMedian, hne, hodd]
  · simp [median_safe, pyMedian, hne, heven]
  · with_unfolding_all decide
  · with_unfolding_all decide

/-- Witness for C3 at the two concrete windows named by the claim. -/
theorem C3_median_witness :
    median_safe [400, 420, 440] = some 420 ∧
    median_safe [400, 420, 440, 460] = some 430 :=
  ⟨(C3_median [400, 420, 440] (by decide)).2.2.1,
   (C3_median [400, 420, 440, 460] (by decide)).2.2.2⟩

/-- Temperature zone windows `{0: [20.0, 21.0], 1: [], 2: [19.5, 19.7], 3: []}`
of the C5 example (`19.5 = 39/2`, `19.7 = 197/10`). -/
def tempExampleBuf : Buf :=
  { emptyBuf with
    temp_slots := fun i =>
      if i = 0 then [(0, 20), (1, 21)]
      else if i = 2 then [(0, 39/2), (1, 197/10)]
      else [] }

/-- Claim C5: payload shaping turns each `None` aggregate into filler `0`
(`0.0` for float arrays, `0` for int arrays) in a 4-element array; on the
example temperature windows the shaped array is
`[20.5, 0.0, 19.6, 0.0]` (`20.5 = 41/2`, `19.6 = 98/5`). -/
theorem C5_payload_shaping :
    f4_float (temp_slots_aggs tempExampleBuf) = [41/2, 0, 98/5, 0] ∧
    (∀ a b c d : Option ℚ,
      f4_float [a, b, c, d] = [a.getD 0, b.getD 0, c.getD 0, d.getD 0]) ∧
    single_to4_int none = [0, 0, 0, 0] ∧
    single_to4_float none = [0, 0, 0, 0] := by
  refine ⟨by with_unfolding_all decide, fun a b c d => ?_, rfl, rfl⟩
  simp [f4_float]

/-- Claim C10: `MQTTClient.publish` always forwards the message to the
underlying client; topic membership in `publish_topics` only selects which
log line is printed. -/
theorem C10_publish_always_forwards (publish_topics : List (String × ℕ))
    (topic payload : String) (qos : ℕ) :
    (MQTTClient_publish publish_topics topic payload qos).2 =
      [(topic, payload, qos)] ∧
    ((MQTTClient_publish publish_topics topic payload qos).1 = PubLog.pubLine ↔
      topic ∈ publish_topics.map (fun t => t.1)) := by
  unfold MQTTClient_publish
  split_ifs with hmem <;> simp [hmem]

/-- Claim C8: inside one publish cycle every configured destination is
attempted in order, whether or not earlier destinations failed, and a
failing destination produces a logged error event; the loop always runs to
completion (the event list is total). -/
theorem C8_per_destination_isolation (topics : List (String × ℕ))
    (pub : String → Except String Unit) :
    (publishToAll pub topics).map PubEvent.topic = topics.map (fun t => t.1) ∧
    (∀ t q e, (t, q) ∈ topics → pub t = .error e →
      PubEvent.errorLogged t e ∈ publishToAll pub topics) := by
  constructor
  · induction topics with
    | nil => rfl
    | cons hd tl ih =>
        obtain ⟨t, q⟩ := hd
        simp only [publishToAll]
        cases hpub : pub t <;> simp [PubEvent.topic, ih]
  · intro t q e hmem herr
    induction topics with
    | nil => simp at hmem
    | cons hd tl ih =>
        obtain ⟨t1, q1⟩ := hd
        simp only [publishToAll]
        rcases List.mem_cons.1 hmem with heq | htl
        · obtain ⟨rfl, rfl⟩ := Prod.mk.injEq .. ▸ heq
          · rw [herr]
            exact List.mem_cons_self _ _
        · cases hpub : pub t1 <;> exact List.mem_cons_of_mem _ (ih htl)

/-- Witness for C8: with destinations `a` then `b` and a publisher that
fails on `a`, the failure on `a` is logged and `b` is still attempted. -/
theorem C8_per_destination_isolation_witness :
    (publishToAll
        (fun t => if t = "a" then Except.error "boom" else Except.ok ())
        [("a", 0), ("b", 1)]).map PubEvent.topic = ["a", "b"] ∧
    PubEvent.errorLogged "a" "boom" ∈ publishToAll
        (fun t => if t = "a" then Except.error "boom" else Except.ok ())
        [("a", 0), ("b", 1)] :=
  ⟨(C8_per_destination_isolation [("a", 0), ("b", 1)]
      (fun t => if t = "a" then Except.error "boom" else Except.ok ())).1,
   (C8_per_destination_isolation [("a", 0), ("b", 1)]
      (fun t => if t = "a" then Except.error "boom" else Except.ok ())).2
      "a" 0 "boom" (by simp) (by simp)⟩

/-- Counterexample to claim C7 as stated: when `mqtt.connect()` raises, the
publisher never enters its loop and never attempts a second connection —
there is no retry on a next cycle. -/
theorem C7_no_retry_counterexample :
    StartEvent.enterLoop ∉ publisherStartEvents (.error "connection refused") ∧
    (publisherStartEvents (.error "connection refused")).count
      StartEvent.connectAttempt = 1 := by
  constructor
  · simp [publisherStartEvents]
  · rfl

/-- Claim C7 amended: when connecting to the broker fails, the publisher
logs the error and returns normally (the exception does not propagate), but
it stops: it neither enters the publish loop nor retries the connection. -/
theorem C7_connect_failure_logged_no_retry (e : String) :
    publisherStartEvents (.error e) =
      [StartEvent.connectAttempt, StartEvent.connectErrorLog e] ∧
    StartEvent.enterLoop ∉ publisherStartEvents (.error e) ∧
    (publisherStartEvents (.error e)).count StartEvent.connectAttempt = 1 := by
  refine ⟨rfl, ?_, ?_⟩
  · simp [publisherStartEvents]
  · rfl

-- Helper lemmas about the SHTC3 channel loop.

theorem shtc3_foldl_sht41 (r : ℕ → ReadResult (ℚ × ℚ)) :
    ∀ (chans : List ℕ) (s : Latest),
      (chans.foldl (shtc3Step r) s).sht41 = s.sht41 := by
  intro chans
  induction chans with
  | nil => intro s; rfl
  | cons c tl ih =>
      intro s
      rw [List.foldl_cons, ih]
      unfold shtc3Step
      cases r c <;> rfl

theorem shtc3_foldl_preserve (r : ℕ → ReadResult (ℚ × ℚ)) :
    ∀ (chans : List ℕ) (s : Latest) (ch : ℕ), ch ∉ chans →
      (chans.foldl (shtc3Step r) s).shtc3 ch = s.shtc3 ch := by
  intro chans
  induction chans with
  | nil => intro s ch _; rfl
  | cons c tl ih =>
      intro s ch hch
      rw [List.foldl_cons, ih _ _ (fun hmem => hch (List.mem_cons_of_mem _ hmem))]
      have hne : ch ≠ c := fun heq => hch (heq ▸ List.mem_cons_self _ _)
      cases hrc : r c <;> simp [shtc3Step, hrc, Function.update_noteq hne]

theorem shtc3_foldl_error_none (r : ℕ → ReadResult (ℚ × ℚ)) :
    ∀ (chans : List ℕ) (s : Latest) (ch : ℕ) (e : String), ch ∈ chans →
      r ch = .error e → (chans.foldl (shtc3Step r) s).shtc3 ch = none := by
  intro chans
  induction chans with
  | nil => intro s ch e hmem; exact absurd hmem (List.not_mem_nil ch)
  | cons c tl ih =>
      intro s ch e hmem herr
      rw [List.foldl_cons]
      by_cases htl : ch ∈ tl
      · exact ih _ _ _ htl herr
      · rcases List.mem_cons.1 hmem with rfl | hmem2
        · rw [shtc3_foldl_preserve r tl _ _ htl]
          simp [shtc3Step, herr]
        · exact absurd hmem2 htl

/-- Claim C9: when a sensor read fails in a worker iteration, the failed
identifier's entry of `latest` is cleared to `None` in the same iteration
(SHT41, SHTC3 channels, BME280, GP2Y), while the MH-Z19B CO₂ worker may
substitute the adapter's last-known-good reading for a failed read; an
exception in the CO₂ worker still clears the entry. -/
theorem C9_failure_clears_state (st : Latest) :
    (∀ (e : String) shtc3Read chans,
      (worker_mux_shts_iter (.error e) shtc3Read chans st).sht41 = none) ∧
    (∀ sht41Read shtc3Read chans (ch : ℕ) (e : String),
      ch ∈ chans → shtc3Read ch = .error e →
      (worker_mux_shts_iter sht41Read shtc3Read chans st).shtc3 ch = none) ∧
    (∀ (e : String) gp2yRead,
      (worker_bme_gp2y_iter true (.error e) gp2yRead st).bme280 = none) ∧
    (∀ haveBme bmeRead (e : String),
      (worker_bme_gp2y_iter haveBme bmeRead (.error e) st).gp2y = none) ∧
    (∀ (e : String) lastValid,
      (worker_mhz_iter true (.error e) lastValid st).mhz19b = none) ∧
    (∀ c t u : ℤ,
      (worker_mhz_iter true (.ok none) (some (c, t, u)) st).mhz19b = some (c, t)) := by
  refine ⟨fun e r chans => ?_, fun s41 r chans ch e hmem herr => ?_,
    fun e g => ?_, fun hb br e => ?_, fun e lv => ?_, fun c t u => ?_⟩
  · unfold worker_mux_shts_iter
    exact shtc3_foldl_sht41 r chans _
  · unfold worker_mux_shts_iter
    exact shtc3_foldl_error_none r chans _ ch e hmem herr
  · unfold worker_bme_gp2y_iter
    cases g <;> rfl
  · unfold worker_bme_gp2y_iter
    cases hb <;> cases br <;> rfl
  · rfl
  · rfl

/-- A fully populated `latest` state, so that clearing is observable. -/
def stFull : Latest :=
  { sht41 := some (22, 45)
    shtc3 := fun _ => some (23, 50)
    bme280 := some (24, 40, 1013, 30)
    gp2y := some (1, 35)
    mhz19b := some (600, 25) }

/-- Witness for C9 at a fully populated `latest` state: each failing read
clears exactly its own entry, and a failed CO₂ read with a last-known-good
reading substitutes that reading. -/
theorem C9_failure_clears_state_witness :
    (worker_mux_shts_iter (.error "crc") (fun _ => .ok (3, 4)) [2, 3, 4, 5]
      stFull).sht41 = none ∧
    (worker_mux_shts_iter (.ok (1, 2)) (fun _ => .error "crc") [2, 3, 4, 5]
      stFull).shtc3 3 = none ∧
    (worker_bme_gp2y_iter true (.error "i2c") (.ok (9, 10)) stFull).bme280 = none ∧
    (worker_bme_gp2y_iter true (.ok (1, 2, 3, 4)) (.error "adc") stFull).gp2y = none ∧
    (worker_mhz_iter true (.error "uart") (some (400, 20, 0)) stFull).mhz19b = none ∧
    (worker_mhz_iter true (.ok none) (some (410, 21, 0)) stFull).mhz19b =
      some (410, 21) :=
  ⟨(C9_failure_clears_state stFull).1 "crc" (fun _ => .ok (3, 4)) [2, 3, 4, 5],
   (C9_failure_clears_state stFull).2.1 (.ok (1, 2)) (fun _ => .error "crc")
     [2, 3, 4, 5] 3 "crc" (by simp) rfl,
   (C9_failure_clears_state stFull).2.2.1 "i2c" (.ok (9, 10)),
   (C9_failure_clears_state stFull).2.2.2.1 true (.ok (1, 2, 3, 4)) "adc",
   (C9_failure_clears_state stFull).2.2.2.2.1 "uart" (some (400, 20, 0)),
   (C9_failure_clears_state stFull).2.2.2.2.2 410 21 0⟩

-- Pruning lemmas for C4.

/-- A deque is ordered by timestamp (the append-order invariant the
Publisher maintains, since it pushes with the monotonic tick time). -/
def tsSorted (l : List Entry) : Prop := l.Pairwise (fun a b => a.1 ≤ b.1)

instance (l : List Entry) : Decidable (tsSorted l) :=
  decidable_of_iff (l.Pairwise (fun a b => a.1 ≤ b.1)) (by rw [tsSorted])

theorem pruneDeque_keeps (c : ℚ) :
    ∀ l : List Entry, ∀ e ∈ l, ¬ e.1 < c → e ∈ pruneDeque c l := by
  intro l
  induction l with
  | nil => intro e he; exact absurd he (List.not_mem_nil e)
  | cons hd tl ih =>
      obtain ⟨t, v⟩ := hd
      intro e he hkeep
      by_cases htc : t < c
      · simp only [pruneDeque, htc, if_true]
        rcases List.mem_cons.1 he with rfl | htl
        · exact absurd htc hkeep
        · exact ih e htl hkeep
      · simpa only [pruneDeque, htc, if_false] using he

theorem pruneDeque_removes (c : ℚ) :
    ∀ l : List Entry, tsSorted l → ∀ e ∈ pruneDeque c l, ¬ e.1 < c := by
  intro l
  induction l with
  | nil => intro _ e he; exact absurd he (List.not_mem_nil e)
  | cons hd tl ih =>
      obtain ⟨t, v⟩ := hd
      intro hsort e he
      rw [tsSorted, List.pairwise_cons] at hsort
      by_cases htc : t < c
      · rw [pruneDeque, if_pos htc] at he
        exact ih hsort.2 e he
      · rw [pruneDeque, if_neg htc] at he
        rcases List.mem_cons.1 he with rfl | htl
        · exact htc
        · have hle : t ≤ e.1 := hsort.1 e htl
          intro hlt
          exact htc (lt_of_le_of_lt hle hlt)

theorem zip_self_map {α β : Type} (l : List α) (f : α → β) :
    l.zip (l.map f) = l.map (fun a => (a, f a)) := by
  induction l with
  | nil => rfl
  | cons hd tl ih => simp [ih]

theorem prune_now_deques (now : ℚ) (b : Buf) :
    (prune_now now b).deques = b.deques.map (pruneDeque (now - BUF_WINDOW_S)) :=
  rfl

/-- A buffer whose zone-0 temperature deque is not ordered by timestamp:
a fresh entry sits in front of a stale one. -/
def bufBad : Buf :=
  { emptyBuf with temp_slots := fun i => if i = 0 then [(100, 1), (0, 2)] else [] }

/-- Counterexample to claim C4 as stated: for arbitrary insertion order,
`_prune_now` does not remove every stale entry — behind the fresh head
`(100, 1)` the entry `(0, 2)`, strictly older than `now - 10s`, survives
`prune(20)`. -/
theorem C4_prune_counterexample :
    ((0 : ℚ), (2 : ℚ)) ∈ (prune_now 20 bufBad).temp_slots 0 ∧
    (0 : ℚ) < 20 - BUF_WINDOW_S := by
  constructor
  · with_unfolding_all decide
  · with_unfolding_all decide

/-- Claim C4 amended: entries within the window are always retained, for any
insertion order (first conjunct, no ordering hypothesis); and whenever every
metric's sequence is ordered by timestamp — the append-order invariant, since
the Publisher is the only writer and pushes with the monotonic tick time —
`prune(now)` additionally removes every entry strictly older than
`now - 10s` (second conjunct). -/
theorem C4_prune_window (now : ℚ) (b : Buf) :
    (∀ p ∈ b.deques.zip ((prune_now now b).deques),
      ∀ e ∈ p.1, ¬ e.1 < now - BUF_WINDOW_S → e ∈ p.2) ∧
    ((∀ d ∈ b.deques, tsSorted d) →
      ∀ p ∈ b.deques.zip ((prune_now now b).deques),
        ∀ e ∈ p.2, ¬ e.1 < now - BUF_WINDOW_S) := by
  constructor
  · intro p hp
    rw [prune_now_deques, zip_self_map] at hp
    obtain ⟨d, hd, rfl⟩ := List.mem_map.1 hp
    exact fun e he hin => pruneDeque_keeps _ d e he hin
  · intro hs p hp
    rw [prune_now_deques, zip_self_map] at hp
    obtain ⟨d, hd, rfl⟩ := List.mem_map.1 hp
    exact pruneDeque_removes _ d (hs d hd)

/-- A buffer with one timestamp-ordered CO₂ deque straddling the cutoff. -/
def bufSortedEx : Buf := { emptyBuf with co2 := [(5, 400), (15, 410)] }

/-- Witness for the amended C4: retention holds even on the out-of-order
buffer `bufBad` (the in-window entry `(100, 1)` survives `prune(20)`), and
on the timestamp-ordered `bufSortedEx` the removal half applies, so the
surviving entry `(15, 410)` is not stale. -/
theorem C4_prune_window_witness :
    ((100 : ℚ), (1 : ℚ)) ∈ (prune_now 20 bufBad).temp_slots 0 ∧
    ¬ (15 : ℚ) < 20 - BUF_WINDOW_S :=
  ⟨(C4_prune_window 20 bufBad).1
    (bufBad.temp_slots 0, (prune_now 20 bufBad).temp_slots 0)
    (by with_unfolding_all decide) (100, 1)
    (by with_unfolding_all decide) (by with_unfolding_all decide),
   (C4_prune_window 20 bufSortedEx).2 (by with_unfolding_all decide)
    (bufSortedEx.co2, (prune_now 20 bufSortedEx).co2)
    (by with_unfolding_all decide) (15, 410)
    (by with_unfolding_all decide)⟩

-- Publisher-cycle lemmas for C6.

/-- None of the four deque groups the warm-up test inspects holds a sample. -/
def checkedEmpty (b : Buf) : Prop :=
  (∀ i : Fin 4, b.temp_slots i = []) ∧ b.co2 = [] ∧ b.pm25 = [] ∧ b.bme_pres = []

theorem warmCheck_false_iff (b : Buf) :
    warmCheck b = false ↔ checkedEmpty b := by
  simp [warmCheck, checkedEmpty, List.isEmpty_iff]
  tauto

theorem pushSnap_temp_slots (ts : ℚ) (snap : Snap) (b : Buf) (i : Fin 4) :
    (pushSnap ts snap b).temp_slots i =
      match snap.shtc3 i with
      | some e => pushVal ts e.1 (b.temp_slots i)
      | none => b.temp_slots i := by
  obtain ⟨s3, sb, sm, sg⟩ := snap
  cases sb <;> cases sm <;> cases sg <;> rfl

theorem pushSnap_co2 (ts : ℚ) (snap : Snap) (b : Buf) :
    (pushSnap ts snap b).co2 =
      match snap.mhz19b with
      | some c => pushVal ts c b.co2
      | none => b.co2 := by
  obtain ⟨s3, sb, sm, sg⟩ := snap
  cases sb <;> cases sm <;> cases sg <;> rfl

theorem pushSnap_pm25 (ts : ℚ) (snap : Snap) (b : Buf) :
    (pushSnap ts snap b).pm25 =
      match snap.gp2y with
      | some p => pushVal ts p b.pm25
      | none => b.pm25 := by
  obtain ⟨s3, sb, sm, sg⟩ := snap
  cases sb <;> cases sm <;> cases sg <;> rfl

theorem pushSnap_bme_pres (ts : ℚ) (snap : Snap) (b : Buf) :
    (pushSnap ts snap b).bme_pres =
      match snap.bme280 with
      | some e => pushVal ts e.2.2 b.bme_pres
      | none => b.bme_pres := by
  obtain ⟨s3, sb, sm, sg⟩ := snap
  cases sb <;> cases sm <;> cases sg <;> rfl

/-- A sample pushed at the current tick time is never pruned at that tick. -/
theorem pruneDeque_push_empty (now : ℚ) (v : Option ℚ) :
    pruneDeque (now - BUF_WINDOW_S) (pushVal now v []) = pushVal now v [] := by
  cases v with
  | none => rfl
  | some x =>
      simp only [pushVal, List.nil_append, pruneDeque]
      rw [if_neg]
      intro hlt
      rw [BUF_WINDOW_S] at hlt
      linarith

/-- On a buffer with no warm-up-checked samples, the warm-up test after one
push-and-prune tick holds exactly when the snapshot carried such a sample. -/
theorem warmCheck_tick (now : ℚ) (snap : Snap) (b : Buf) (h : checkedEmpty b) :
    warmCheck (prune_now now (pushSnap now snap b)) = snapHasSample snap := by
  obtain ⟨ht, hc, hp, hpr⟩ := h
  have hts : ∀ i : Fin 4,
      (!((prune_now now (pushSnap now snap b)).temp_slots i).isEmpty) =
        (match snap.shtc3 i with
        | some e => e.1.isSome
        | none => false) := by
    intro i
    show (!(pruneDeque (now - BUF_WINDOW_S)
        ((pushSnap now snap b).temp_slots i)).isEmpty) = _
    rw [pushSnap_temp_slots, ht i]
    cases hsi : snap.shtc3 i with
    | none => rfl
    | some e =>
        obtain ⟨e1, e2⟩ := e
        rw [pruneDeque_push_empty]
        cases e1 <;> rfl
  have hco2 : (!((prune_now now (pushSnap now snap b)).co2).isEmpty) =
      (match snap.mhz19b with
      | some c => c.isSome
      | none => false) := by
    show (!(pruneDeque (now - BUF_WINDOW_S) ((pushSnap now snap b).co2)).isEmpty) = _
    rw [pushSnap_co2, hc]
    cases hm : snap.mhz19b with
    | none => rfl
    | some c =>
        rw [pruneDeque_push_empty]
        cases c <;> rfl
  have hpm : (!((prune_now now (pushSnap now snap b)).pm25).isEmpty) =
      (match snap.gp2y with
      | some p => p.isSome
      | none => false) := by
    show (!(pruneDeque (now - BUF_WINDOW_S) ((pushSnap now snap b).pm25)).isEmpty) = _
    rw [pushSnap_pm25, hp]
    cases hg : snap.gp2y with
    | none => rfl
    | some p =>
        rw [pruneDeque_push_empty]
        cases p <;> rfl
  have hpres : (!((prune_now now (pushSnap now snap b)).bme_pres).isEmpty) =
      (match snap.bme280 with
      | some e => e.2.2.isSome
      | none => false) := by
    show (!(pruneDeque (now - BUF_WINDOW_S) ((pushSnap now snap b).bme_pres)).isEmpty) = _
    rw [pushSnap_bme_pres, hpr]
    cases hb : snap.bme280 with
    | none => rfl
    | some e =>
        obtain ⟨e1, e2, e3⟩ := e
        rw [pruneDeque_push_empty]
        cases e3 <;> rfl
  unfold warmCheck snapHasSample
  rw [congrArg (List.any (List.finRange 4)) (funext hts), hco2, hpm, hpres]

/-- `pubTick` once `first_window_start` is latched to `x`. -/
theorem pubTick_some (now : ℚ) (snap : Snap) (x t0 : ℚ) (b : Buf) :
    pubTick now snap ⟨some x, t0⟩ b =
      if BUF_WINDOW_S ≤ now - t0 ∧ BUF_WINDOW_S ≤ now - x then
        (⟨some x, now⟩, prune_now now (pushSnap now snap b), true)
      else (⟨some x, t0⟩, prune_now now (pushSnap now snap b), false) := rfl

/-- `pubTick` on the tick that first observes a sample: it latches
`first_window_start := now` and cannot publish yet. -/
theorem pubTick_none_warm (now : ℚ) (snap : Snap) (t0 : ℚ) (b : Buf)
    (h : warmCheck (prune_now now (pushSnap now snap b)) = true) :
    pubTick now snap ⟨none, t0⟩ b =
      (⟨some now, t0⟩, prune_now now (pushSnap now snap b), false) := by
  simp only [pubTick, h, if_true]
  rw [if_neg]
  intro hcon
  have h2 := hcon.2
  rw [BUF_WINDOW_S] at h2
  linarith

/-- `pubTick` before any sample has been observed. -/
theorem pubTick_none_cold (now : ℚ) (snap : Snap) (t0 : ℚ) (b : Buf)
    (h : warmCheck (prune_now now (pushSnap now snap b)) = false) :
    pubTick now snap ⟨none, t0⟩ b =
      (⟨none, t0⟩, prune_now now (pushSnap now snap b), false) := by
  simp only [pubTick, h, Bool.false_eq_true, if_false]

/-- Once `first_window_start = x` is latched, every later publish happens at
least one window after `x`. -/
theorem pubRunAux_lb (x : ℚ) :
    ∀ (ticks : List (ℚ × Snap)) (t0 : ℚ) (b : Buf),
      ∀ p ∈ pubRunAux ⟨some x, t0⟩ b ticks, x + BUF_WINDOW_S ≤ p := by
  intro ticks
  induction ticks with
  | nil => intro t0 b p hp; exact absurd hp (List.not_mem_nil p)
  | cons tk rest ih =>
      obtain ⟨now, snap⟩ := tk
      intro t0 b p hp
      rw [pubRunAux, pubTick_some] at hp
      by_cases hcond : BUF_WINDOW_S ≤ now - t0 ∧ BUF_WINDOW_S ≤ now - x
      · rw [if_pos hcond] at hp
        simp only [if_true] at hp
        rcases List.mem_cons.1 hp with rfl | htl
        · linarith [hcond.2]
        · exact ih now _ p htl
      · rw [if_neg hcond] at hp
        simp only [if_false] at hp
        exact ih t0 _ p hp

/-- During warm-up every publish is at least one window after the first
sample of the remaining tick stream. -/
theorem pubRunAux_warm :
    ∀ (ticks : List (ℚ × Snap)) (t0 : ℚ) (b : Buf), checkedEmpty b →
      ∀ p ∈ pubRunAux ⟨none, t0⟩ b ticks,
        ∃ x, firstSampleTime ticks = some x ∧ x + BUF_WINDOW_S ≤ p := by
  intro ticks
  induction ticks with
  | nil => intro t0 b _ p hp; exact absurd hp (List.not_mem_nil p)
  | cons tk rest ih =>
      obtain ⟨now, snap⟩ := tk
      intro t0 b hb p hp
      have hwc := warmCheck_tick now snap b hb
      rw [pubRunAux] at hp
      by_cases hsnap : snapHasSample snap = true
      · rw [hsnap] at hwc
        rw [pubTick_none_warm now snap t0 b hwc] at hp
        simp only [if_false] at hp
        refine ⟨now, ?_, pubRunAux_lb now rest t0 _ p hp⟩
        simp [firstSampleTime, List.find?_cons_of_pos, hsnap]
      · have hsnap2 : snapHasSample snap = false := by
          exact Bool.not_eq_true _ ▸ (Bool.eq_false_iff.2 hsnap)
        rw [hsnap2] at hwc
        rw [pubTick_none_cold now snap t0 b hwc] at hp
        simp only [if_false] at hp
        have hb1 : checkedEmpty (prune_now now (pushSnap now snap b)) :=
          (warmCheck_false_iff _).1 hwc
        obtain ⟨x, hfind, hle⟩ := ih t0 _ hb1 p hp
        refine ⟨x, ?_, hle⟩
        rw [firstSampleTime] at hfind ⊢
        rw [List.find?_cons_of_neg _ (by simp [hsnap2])]
        exact hfind

/-- The head of a run is at least one window after the entry `t0`. -/
theorem pubRunAux_head :
    ∀ (ticks : List (ℚ × Snap)) (s : PubState) (b : Buf) (h : ℚ) (t : List ℚ),
      pubRunAux s b ticks = h :: t → s.t0 + BUF_WINDOW_S ≤ h := by
  intro ticks
  induction ticks with
  | nil => intro s b h t heq; exact absurd heq (by simp [pubRunAux])
  | cons tk rest ih =>
      obtain ⟨now, snap⟩ := tk
      intro s b h t heq
      obtain ⟨fws, t0⟩ := s
      cases fws with
      | some x =>
          rw [pubRunAux, pubTick_some] at heq
          by_cases hcond : BUF_WINDOW_S ≤ now - t0 ∧ BUF_WINDOW_S ≤ now - x
          · rw [if_pos hcond] at heq
            simp only [if_true] at heq
            have hnow : now = h := (List.cons.injEq .. ▸ heq).1
            have := hcond.1
            simp only [PubState.t0]
            linarith [hnow ▸ this]
          · rw [if_neg hcond] at heq
            simp only [if_false] at heq
            exact ih ⟨some x, t0⟩ _ h t heq
      | none =>
          cases hwc : warmCheck (prune_now now (pushSnap now snap b)) with
          | true =>
              rw [pubRunAux, pubTick_none_warm now snap t0 b hwc] at heq
              simp only [if_false] at heq
              exact ih ⟨some now, t0⟩ _ h t heq
          | false =>
              rw [pubRunAux, pubTick_none_cold now snap t0 b hwc] at heq
              simp only [if_false] at heq
              exact ih ⟨none, t0⟩ _ h t heq

/-- Consecutive publishes are at least one window apart. -/
theorem pubRunAux_chain :
    ∀ (ticks : List (ℚ × Snap)) (s : PubState) (b : Buf),
      List.Chain' (fun a c => a + BUF_WINDOW_S ≤ c) (pubRunAux s b ticks) := by
  intro ticks
  induction ticks with
  | nil => intro s b; exact List.chain'_nil
  | cons tk rest ih =>
      obtain ⟨now, snap⟩ := tk
      intro s b
      obtain ⟨fws, t0⟩ := s
      cases fws with
      | some x =>
          rw [pubRunAux, pubTick_some]
          by_cases hcond : BUF_WINDOW_S ≤ now - t0 ∧ BUF_WINDOW_S ≤ now - x
          · rw [if_pos hcond]
            simp only [if_true]
            rw [List.chain'_cons']
            refine ⟨?_, ih _ _⟩
            intro y hy
            cases hrun : pubRunAux ⟨some x, now⟩ (prune_now now (pushSnap now snap b)) rest with
            | nil => rw [hrun] at hy; simp at hy
            | cons hd tl =>
                rw [hrun] at hy
                simp only [List.head?_cons, Option.mem_def, Option.some.injEq] at hy
                have := pubRunAux_head rest ⟨some x, now⟩ _ hd tl hrun
                simp only [PubState.t0] at this
                exact hy ▸ this
          · rw [if_neg hcond]
            simp only [if_false]
            exact ih _ _
      | none =>
          cases hwc : warmCheck (prune_now now (pushSnap now snap b)) with
          | true =>
              rw [pubRunAux, pubTick_none_warm now snap t0 b hwc]
              simp only [if_false]
              exact ih _ _
          | false =>
              rw [pubRunAux, pubTick_none_cold now snap t0 b hwc]
              simp only [if_false]
              exact ih _ _

/-- Claim C6: over any run of the Publisher loop, every publish happens at
least one full window (10s) after the tick at which the first sample of any
warm-up-checked metric entered the window buffer, and consecutive publishes
are at least 10s apart. -/
theorem C6_publisher_timing (tStart : ℚ) (ticks : List (ℚ × Snap)) :
    (∀ p ∈ publishTimes tStart ticks,
      ∃ x, firstSampleTime ticks = some x ∧ x + BUF_WINDOW_S ≤ p) ∧
    List.Chain' (fun a b => a + BUF_WINDOW_S ≤ b) (publishTimes tStart ticks) := by
  constructor
  · intro p hp
    exact pubRunAux_warm ticks tStart emptyBuf ⟨fun i => rfl, rfl, rfl, rfl⟩ p hp
  · exact pubRunAux_chain ticks ⟨none, tStart⟩ emptyBuf

/-- A snapshot with no readings at all. -/
def snapNone : Snap := ⟨fun _ => none, none, none, none⟩

/-- A snapshot carrying one CO₂ reading. -/
def snapCo2 : Snap := ⟨fun _ => none, none, some (some 400), none⟩

/-- Witness for C6: in a run whose first sample arrives at time 0 and which
publishes at time 12, the publish is indeed at least 10s after the first
sample. -/
theorem C6_publisher_timing_witness :
    ∃ x, firstSampleTime [(0, snapCo2), (12, snapNone)] = some x ∧
      x + BUF_WINDOW_S ≤ 12 :=
  (C6_publisher_timing 0 [(0, snapCo2), (12, snapNone)]).1 12
    (by with_unfolding_all decide)
